import Mathlib

/-!
Verification of the `lambda-s3-archiver` module (`src/index.js`).

The single exported function `archive(sourceBucket, sourcePathPrefix,
sourceFiles, outputFilename, outputFormat, uploadOptions, archiverOptions)`
resolves a list of S3 keys (either the explicit `sourceFiles` prefixed with
the path, or a paginated `listObjectsV2` enumeration), appends each as a
named entry to an `archiver` stream piped into a `PassThrough` that serves
as the `Body` of an `s3.upload`, finalizes the archive, and resolves with
`{s3Bucket, fileKey, fileSize}` where `fileSize` is the archiver byte
counter (`streamArchiver.pointer()`).

Each definition below is a shallow embedding of a specific piece of that
source: JavaScript strings become `String`, S3 listing pages become an
explicit list of responses, the asynchronous byte pipeline becomes explicit
lists of bytes, and thrown exceptions / promise rejection become `Except`.
-/

/-- A JavaScript value in the `outputFormat` argument position.  The JS
`outputFormat = 'zip'` default only fires for `undefined`, so the modelled
value is the post-default one: `null` and numbers flow into the body as-is. -/
inductive JSVal where
  | str : String → JSVal
  | num : Int → JSVal
  | null : JSVal
deriving DecidableEq

/-- ASCII behaviour of JavaScript `String.prototype.toLowerCase` (all keys
compared by the source are ASCII: `'zip'`, `'tar'`). -/
def jsToLower (s : String) : String :=
  String.mk (s.toList.map Char.toLower)

/-- Line 46: `['zip', 'tar'].includes(outputFormat.toLowerCase()) ? outputFormat : 'zip'`.
On a non-string value, `.toLowerCase()` throws a `TypeError`, which the
surrounding `try` turns into a rejection: modelled as `Except.error`.
Note the check is on the lowercased value but the kept value is the
original `outputFormat`. -/
def computeFormatJS : JSVal → Except String String
  | JSVal.str s => Except.ok (if ["zip", "tar"].contains (jsToLower s) then s else "zip")
  | _ => Except.error "TypeError: outputFormat.toLowerCase is not a function"

/-- Line 45: `const sourcePath = sourcePathPrefix || '';` — a missing/falsy
value becomes the empty string. -/
def sourcePathOf : Option String → String
  | some s => s
  | none => ""

/-- JavaScript `String.prototype.lastIndexOf` for a single character,
returning `-1` when absent (index accumulator walk over the characters). -/
def lastIndexOfAux (c : Char) : List Char → Nat → Int → Int
  | [], _, acc => acc
  | x :: xs, i, acc => lastIndexOfAux c xs (i + 1) (if x = c then (i : Int) else acc)

/-- `s.lastIndexOf(c)` as in JavaScript. -/
def jsLastIndexOf (s : String) (c : Char) : Int :=
  lastIndexOfAux c s.toList 0 (-1)

/-- `s.substring(i)` for a non-negative start index. -/
def jsSubstringFrom (s : String) (i : Nat) : String :=
  String.mk (s.toList.drop i)

/-- Line 101: `s3File.substring(s3File.lastIndexOf("/") + 1)` — the archive
entry name used when no naming callback is supplied. -/
def defaultEntryName (s : String) : String :=
  jsSubstringFrom s (jsLastIndexOf s '/' + 1).toNat

/-- Lines 99-101: the archive entry name — `archiverOptions.s3FileNameTransform`
applied to the full key when present, else the substring after the last `/`. -/
def entryName (policy : Option (String → String)) (k : String) : String :=
  match policy with
  | some f => f k
  | none => defaultEntryName k

/-- The archive entry names produced for a list of resolved keys, in order. -/
def entryNames (policy : Option (String → String)) (ks : List String) : List String :=
  ks.map (entryName policy)

/-- One `listObjectsV2` response: `Contents[].Key`, `NextContinuationToken`
and `IsTruncated`. -/
structure S3Page where
  contents : List String
  nextToken : Option String
  isTruncated : Bool
deriving DecidableEq

/-- Result of running the listing loop of lines 76-90: the accumulated keys,
the `ContinuationToken` value passed to each `listObjectsV2` call (in call
order), and the number of calls made. -/
structure ListLoopResult where
  keys : List String
  tokensPassed : List (Option String)
  calls : Nat
deriving DecidableEq

/-- Lines 76-90: the `while (true)` pagination loop.  The lister collaborator
is modelled by the sequence of pages it returns, one per call, in call
order.  Each iteration records the token it passed, filters out any key
equal to `sourcePath` (line 85), concatenates, and stops when the page is
not truncated.  An empty page list models a lister that never answers, so
no call completes. -/
def listLoop : List S3Page → Option String → String → ListLoopResult
  | [], _, _ => ⟨[], [], 0⟩
  | p :: rest, tok, sourcePath =>
    let keys := p.contents.filter (fun k => k != sourcePath)
    if p.isTruncated then
      let r := listLoop rest p.nextToken sourcePath
      ⟨keys ++ r.keys, tok :: r.tokensPassed, r.calls + 1⟩
    else
      ⟨keys, [tok], 1⟩

/-- A well-formed lister run: at least one page, every page but the last has
`IsTruncated = true`, and the last has `IsTruncated = false`. -/
def goodPagesB : List S3Page → Bool
  | [] => false
  | [p] => !p.isTruncated
  | p :: q :: rest => p.isTruncated && goodPagesB (q :: rest)

/-- Result of entry resolution (lines 73-93): the resolved keys plus the
listing calls made while resolving them. -/
structure ResolveResult where
  entries : List String
  listCalls : Nat
  tokensPassed : List (Option String)
deriving DecidableEq

/-- Lines 73-93: `if (sourceFiles && sourceFiles.length > 0)` map each file
to `sourcePath + file`; otherwise run the pagination loop starting from a
`null` continuation token. -/
def resolveEntries (sourceFiles : List String) (pages : List S3Page)
    (sourcePath : String) : ResolveResult :=
  if sourceFiles.length > 0 then
    ⟨sourceFiles.map (fun f => sourcePath ++ f), 0, []⟩
  else
    let r := listLoop pages none sourcePath
    ⟨r.keys, r.calls, r.tokensPassed⟩

/-- One `streamArchiver.append(fileReadStream, { name })` call of the loop at
lines 97-104: the source key whose `getObject` stream was handed to the
archiver, the entry name, and whether that stream will eventually deliver
its bytes (read failures surface asynchronously on the stream, not at the
`append` call site). -/
structure AppendCall where
  key : String
  name : String
  readOk : Bool
deriving DecidableEq

/-- Lines 97-104: the append loop.  Each iteration synchronously creates the
read stream and calls `append`; the loop body contains no failure check, so
the calls made depend only on the resolved entry list. -/
def appendCalls (readOk : String → Bool) (policy : Option (String → String))
    (entries : List String) : List AppendCall :=
  entries.map (fun k => ⟨k, entryName policy k, readOk k⟩)

/-- The fields of the caller's opaque `uploadOptions` bag that can collide
with the parameters the source sets itself; any other key passes through
untouched and is irrelevant to the claims. -/
structure UploadOptions where
  bucket : Option String
  key : Option String
deriving DecidableEq

/-- The `Bucket`/`Key` of the `params` object of lines 52-57. -/
structure UploadParams where
  bucket : String
  key : String
deriving DecidableEq

/-- Lines 52-57: `{ Bucket: sourceBucket, Key: outputFilePath, Body: outputStream,
...uploadOptions }` — the object spread lets `uploadOptions` override
`Bucket` and `Key` when it carries those keys. -/
def uploadParams (sourceBucket outKey : String) (opts : UploadOptions) : UploadParams :=
  { bucket := match opts.bucket with | some b => b | none => sourceBucket,
    key := match opts.key with | some k => k | none => outKey }

/-- The external collaborators of one run: the lister's pages, each object's
bytes, the archive encoder's per-entry byte encoding and finalize trailer
(opaque ZIP/TAR framing), and whether `s3.upload` reports an error. -/
structure Env where
  pages : List S3Page
  contents : String → List Nat
  enc : String → List Nat → List Nat
  trailer : List Nat
  uploadError : Option String

/-- The bytes the archive encoder emits for a run: the encoding of each
appended named entry in order, then the finalize trailer.  Its length is
`streamArchiver.pointer()`. -/
def encoderOutput (env : Env) (named : List (String × List Nat)) : List Nat :=
  (named.map (fun nb => env.enc nb.1 nb.2)).flatten ++ env.trailer

/-- The resolved value of a successful run (lines 63-67):
`{s3Bucket: data.Bucket, fileKey: data.Key, fileSize: streamArchiver.pointer()}`. -/
structure ArchiveResult where
  s3Bucket : String
  fileKey : String
  fileSize : Nat
deriving DecidableEq

/-- The arguments of one `archive(...)` invocation, after JS parameter
defaulting (`sourceFiles = []`, `outputFilename = 'archive'`,
`outputFormat = 'zip'` fire only on `undefined`). -/
structure ArchiveRequest where
  sourceBucket : String
  sourcePath : Option String
  sourceFiles : List String
  outputFilename : String
  outputFormat : JSVal
  uploadOptions : UploadOptions
  namingPolicy : Option (String → String)

/-- Everything observable about one run: the format handed to `archiver(format)`
(`none` when line 46 threw), the constructed `outputFilePath`, the bytes the
encoder emitted, the bytes the upload sink consumed, and the settled promise. -/
structure RunTrace where
  format : Option String
  outKey : Option String
  emitted : List Nat
  sinkReceived : List Nat
  result : Except String ArchiveResult

/-- Lines 43-110: one full run of `archive`.  `streamArchiver.pipe(outputStream)`
(line 71) together with `Body: outputStream` (line 55) means the upload sink
consumes exactly the byte stream the encoder emits — the `PassThrough`
forwards every chunk unchanged — so `sinkReceived` is that same stream.
`fileSize` is the encoder's final byte counter. -/
def runArchive (env : Env) (req : ArchiveRequest) : RunTrace :=
  match computeFormatJS req.outputFormat with
  | Except.error e => ⟨none, none, [], [], Except.error e⟩
  | Except.ok format =>
    let sp := sourcePathOf req.sourcePath
    let outputFilePath := sp ++ req.outputFilename ++ "." ++ format
    let params := uploadParams req.sourceBucket outputFilePath req.uploadOptions
    let entries := (resolveEntries req.sourceFiles env.pages sp).entries
    let named := entries.map (fun k => (entryName req.namingPolicy k, env.contents k))
    let emitted := encoderOutput env named
    match env.uploadError with
    | some e => ⟨some format, some outputFilePath, emitted, emitted, Except.error e⟩
    | none => ⟨some format, some outputFilePath, emitted, emitted,
        Except.ok ⟨params.bucket, params.key, emitted.length⟩⟩

/-- The orchestration events of one run, in the order the source performs
them: `s3.upload(params, cb)` (line 59), `streamArchiver.pipe(outputStream)`
(line 71), the listing calls (lines 76-90), the `append` calls (lines
97-104), then `finalize()` (line 106). -/
inductive PipeEvent where
  | startUpload
  | pipe
  | listCall
  | append (name : String)
  | finalize
deriving DecidableEq

/-- The event trace of one run, read off the statement order of the source:
upload started and encoder piped into the sink first, then entry
resolution, then the appends, then finalize. -/
def archiveTrace (req : ArchiveRequest) (pages : List S3Page) : List PipeEvent :=
  let sp := sourcePathOf req.sourcePath
  let res := resolveEntries req.sourceFiles pages sp
  [PipeEvent.startUpload, PipeEvent.pipe]
    ++ List.replicate res.listCalls PipeEvent.listCall
    ++ res.entries.map (fun k => PipeEvent.append (entryName req.namingPolicy k))
    ++ [PipeEvent.finalize]

/-- For a well-formed lister run the loop visits every page: it gathers all
filtered keys in page order, makes one call per page, and hands each call
the token produced by the previous response (the entry token first). -/
theorem listLoop_spec (sourcePath : String) :
    ∀ pages : List S3Page, goodPagesB pages = true → ∀ tok : Option String,
      (listLoop pages tok sourcePath).keys
          = (pages.map (fun p => p.contents.filter (fun k => k != sourcePath))).flatten ∧
      (listLoop pages tok sourcePath).calls = pages.length ∧
      (listLoop pages tok sourcePath).tokensPassed
          = tok :: pages.dropLast.map S3Page.nextToken := by
  intro pages
  induction pages with
  | nil => intro h; simp [goodPagesB] at h
  | cons p rest ih =>
    intro h tok
    cases rest with
    | nil =>
      simp only [goodPagesB, Bool.not_eq_true'] at h
      simp [listLoop, h]
    | cons q rs =>
      simp only [goodPagesB, Bool.and_eq_true] at h
      obtain ⟨h1, h2⟩ := h
      obtain ⟨hk, hc, ht⟩ := ih h2 p.nextToken
      have hne : q :: rs ≠ ([] : List S3Page) := by simp
      generalize hqr : q :: rs = l at hk hc ht hne ⊢
      simp only [listLoop, h1, if_true]
      refine ⟨?_, ?_, ?_⟩
      · simp [hk]
      · simp [hc]
      · simp [ht, List.dropLast_cons_of_ne_nil hne]

/-- A concrete two-page lister run used to instantiate the resolution
theorems: the first page is truncated and carries a continuation token, the
second is final; the directory-marker key `"p/"` appears on page one. -/
def demoPages : List S3Page :=
  [⟨["p/", "p/a"], some "t1", true⟩, ⟨["p/b"], none, false⟩]

/-- C3: with an empty explicit entry list, the resolved entry set is the
concatenation of the pages' key lists, minus any key exactly equal to the
prefix string, with page order and within-page order preserved. -/
theorem c3_entry_set_completeness (pages : List S3Page) (sourcePath : String)
    (h : goodPagesB pages = true) :
    (resolveEntries [] pages sourcePath).entries
      = (pages.map (fun p => p.contents.filter (fun k => k != sourcePath))).flatten := by
  have hs := listLoop_spec sourcePath pages h none
  simp [resolveEntries, hs.1]

/-- Witness for C3 at the concrete two-page run. -/
theorem c3_entry_set_completeness_witness :
    goodPagesB demoPages = true ∧
    (resolveEntries [] demoPages "p/").entries
      = (demoPages.map (fun p => p.contents.filter (fun k => k != "p/"))).flatten :=
  ⟨by decide, c3_entry_set_completeness demoPages "p/" (by decide)⟩

/-- C4: with a non-empty explicit entry list, no listing call is made and the
resolved entries are exactly the prefix concatenated with each supplied
entry, in input order. -/
theorem c4_explicit_entry_precedence (sourceFiles : List String)
    (pages : List S3Page) (sourcePath : String) (h : sourceFiles ≠ []) :
    (resolveEntries sourceFiles pages sourcePath).entries
        = sourceFiles.map (fun f => sourcePath ++ f) ∧
    (resolveEntries sourceFiles pages sourcePath).listCalls = 0 := by
  cases sourceFiles with
  | nil => exact absurd rfl h
  | cons a as => simp [resolveEntries]

/-- Witness for C4: two explicit entries against a lister that would have
answered, yet zero listing calls. -/
theorem c4_explicit_entry_precedence_witness :
    (["x", "y"] : List String) ≠ [] ∧
    ((resolveEntries ["x", "y"] demoPages "p/").entries
        = ["x", "y"].map (fun f => "p/" ++ f) ∧
     (resolveEntries ["x", "y"] demoPages "p/").listCalls = 0) :=
  ⟨by decide, c4_explicit_entry_precedence ["x", "y"] demoPages "p/" (by decide)⟩

/-- C6: with an empty explicit entry list and a lister truncated on every
page but the last, the loop makes exactly one listing call per page, the
first call carrying the null token and each later call carrying the
previous response's continuation token unchanged. -/
theorem c6_pagination_termination (pages : List S3Page) (sourcePath : String)
    (h : goodPagesB pages = true) :
    (resolveEntries [] pages sourcePath).listCalls = pages.length ∧
    (resolveEntries [] pages sourcePath).tokensPassed
      = none :: pages.dropLast.map S3Page.nextToken := by
  have hs := listLoop_spec sourcePath pages h none
  exact ⟨by simp [resolveEntries, hs.2.1], by simp [resolveEntries, hs.2.2]⟩

/-- Witness for C6: the two-page run makes exactly two calls, the second one
carrying the first page's token `"t1"`. -/
theorem c6_pagination_termination_witness :
    goodPagesB demoPages = true ∧
    ((resolveEntries [] demoPages "p/").listCalls = demoPages.length ∧
     (resolveEntries [] demoPages "p/").tokensPassed
       = none :: demoPages.dropLast.map S3Page.nextToken) :=
  ⟨by decide, c6_pagination_termination demoPages "p/" (by decide)⟩

/-- C7: the archive entry name is the naming policy applied to the full key
when a policy is supplied (one name per entry, order preserved), and
otherwise the substring of the full key after the last `/`, so
`"dir/sub/file.txt"` yields `"file.txt"`. -/
theorem c7_entry_naming :
    (∀ (f : String → String) (ks : List String), entryNames (some f) ks = ks.map f) ∧
    (∀ ks : List String, entryNames none ks = ks.map defaultEntryName) ∧
    defaultEntryName "dir/sub/file.txt" = "file.txt" := by
  refine ⟨fun f ks => rfl, fun ks => rfl, by decide⟩

/-- C9: the upload's target bucket is the `sourceBucket` argument, unless
the caller's `uploadOptions` bag carries a `Bucket` key, in which case the
spread makes that value win. -/
theorem c9_upload_target_bucket (sourceBucket outKey : String) (opts : UploadOptions) :
    (opts.bucket = none →
      (uploadParams sourceBucket outKey opts).bucket = sourceBucket) ∧
    (∀ b : String, opts.bucket = some b →
      (uploadParams sourceBucket outKey opts).bucket = b) := by
  constructor
  · intro h; simp [uploadParams, h]
  · intro b h; simp [uploadParams, h]

/-- Witness for C9: the default bag targets the source bucket; a bag with a
`Bucket` key overrides it. -/
theorem c9_upload_target_bucket_witness :
    (uploadParams "srcB" "k" ⟨none, none⟩).bucket = "srcB" ∧
    (uploadParams "srcB" "k" ⟨some "other", none⟩).bucket = "other" :=
  ⟨(c9_upload_target_bucket "srcB" "k" ⟨none, none⟩).1 rfl,
   (c9_upload_target_bucket "srcB" "k" ⟨some "other", none⟩).2 "other" rfl⟩

/-- A concrete collaborator environment: no lister pages, fixed object
bytes, an encoder that prepends one header byte per entry and a one-byte
trailer, and a succeeding upload. -/
def demoEnv : Env :=
  { pages := [],
    contents := fun _ => [7, 8],
    enc := fun _ bs => 1 :: bs,
    trailer := [9],
    uploadError := none }

/-- A concrete request: one explicit entry under the path `"p/"`, zip
output, empty upload options, no naming callback. -/
def demoReq : ArchiveRequest :=
  { sourceBucket := "b",
    sourcePath := some "p/",
    sourceFiles := ["f"],
    outputFilename := "out",
    outputFormat := JSVal.str "zip",
    uploadOptions := ⟨none, none⟩,
    namingPolicy := none }

/-- C1: on every successful run, the resolved `fileSize` equals the number
of bytes the encoder emitted (its final pointer value), which equals the
number of bytes the upload sink received. -/
theorem c1_byte_size_invariant (env : Env) (req : ArchiveRequest) (r : ArchiveResult)
    (h : (runArchive env req).result = Except.ok r) :
    r.fileSize = (runArchive env req).emitted.length ∧
    (runArchive env req).sinkReceived.length = (runArchive env req).emitted.length ∧
    r.fileSize = (runArchive env req).sinkReceived.length := by
  rcases hf : computeFormatJS req.outputFormat with e | format
  · simp [runArchive, hf] at h
  · rcases hu : env.uploadError with _ | e
    · simp only [runArchive, hf, hu, Except.ok.injEq] at h ⊢
      subst h
      simp
    · simp [runArchive, hf, hu] at h

/-- Witness for C1 at the concrete run: one entry of two content bytes, one
header byte, one trailer byte — four bytes everywhere. -/
theorem c1_byte_size_invariant_witness :
    (runArchive demoEnv demoReq).result = Except.ok ⟨"b", "p/out.zip", 4⟩ ∧
    ((ArchiveResult.mk "b" "p/out.zip" 4).fileSize
        = (runArchive demoEnv demoReq).emitted.length ∧
     (runArchive demoEnv demoReq).sinkReceived.length
        = (runArchive demoEnv demoReq).emitted.length ∧
     (ArchiveResult.mk "b" "p/out.zip" 4).fileSize
        = (runArchive demoEnv demoReq).sinkReceived.length) :=
  ⟨rfl, c1_byte_size_invariant demoEnv demoReq ⟨"b", "p/out.zip", 4⟩ rfl⟩

/-- C5: the format check compares the lowercased `outputFormat` against
`zip`/`tar`; an unrecognized value falls back to `zip` without an error, a
recognized one is kept as passed, and the output key is the source path,
the output filename, a dot and the format — so `outputFormat = "rar"`
yields a `zip` archiver and a key ending in `".zip"`. -/
theorem c5_format_fallback :
    (∀ fmt : String, ["zip", "tar"].contains (jsToLower fmt) = false →
        computeFormatJS (JSVal.str fmt) = Except.ok "zip") ∧
    (∀ fmt : String, ["zip", "tar"].contains (jsToLower fmt) = true →
        computeFormatJS (JSVal.str fmt) = Except.ok fmt) ∧
    (∀ (env : Env) (req : ArchiveRequest), req.outputFormat = JSVal.str "rar" →
        (runArchive env req).format = some "zip" ∧
        (runArchive env req).outKey
          = some (sourcePathOf req.sourcePath ++ req.outputFilename ++ ".zip")) := by
  refine ⟨?_, ?_, ?_⟩
  · intro fmt hf
    simp only [computeFormatJS, hf]
    rfl
  · intro fmt hf
    simp only [computeFormatJS, hf]
    rfl
  · intro env req h
    have hf : computeFormatJS req.outputFormat = Except.ok "zip" := by rw [h]; rfl
    have hdz : ("." : String) ++ "zip" = ".zip" := rfl
    rcases hu : env.uploadError with _ | e <;>
      simp [runArchive, hf, hu, String.append_assoc, hdz]

/-- A request asking for the unsupported `"rar"` format. -/
def demoRarReq : ArchiveRequest :=
  { demoReq with outputFormat := JSVal.str "rar" }

/-- Witness for C5: `"rar"` is rejected by the membership check, falls back
to a zip archiver, and the constructed key is `"p/out.zip"`. -/
theorem c5_format_fallback_witness :
    ["zip", "tar"].contains (jsToLower "rar") = false ∧
    computeFormatJS (JSVal.str "rar") = Except.ok "zip" ∧
    demoRarReq.outputFormat = JSVal.str "rar" ∧
    ((runArchive demoEnv demoRarReq).format = some "zip" ∧
     (runArchive demoEnv demoRarReq).outKey
       = some (sourcePathOf demoRarReq.sourcePath ++ demoRarReq.outputFilename ++ ".zip")) :=
  ⟨rfl, c5_format_fallback.1 "rar" rfl, rfl,
   c5_format_fallback.2.2 demoEnv demoRarReq rfl⟩

/-- C10: a non-string `outputFormat` (here `null` or a number) makes
`.toLowerCase()` throw, so the run rejects with that `TypeError` instead of
defaulting the format to zip: no archiver is ever constructed. -/
theorem c10_nonstring_format_rejects (env : Env) (req : ArchiveRequest)
    (h : ∀ s : String, req.outputFormat ≠ JSVal.str s) :
    (runArchive env req).format = none ∧
    (runArchive env req).result
      = Except.error "TypeError: outputFormat.toLowerCase is not a function" := by
  cases hv : req.outputFormat with
  | str s => exact absurd hv (h s)
  | num n => simp [runArchive, computeFormatJS, hv]
  | null => simp [runArchive, computeFormatJS, hv]

/-- A request whose `outputFormat` argument is JavaScript `null`. -/
def demoNullReq : ArchiveRequest :=
  { demoReq with outputFormat := JSVal.null }

/-- Witness for C10 at `outputFormat = null`. -/
theorem c10_nonstring_format_rejects_witness :
    (∀ s : String, demoNullReq.outputFormat ≠ JSVal.str s) ∧
    ((runArchive demoEnv demoNullReq).format = none ∧
     (runArchive demoEnv demoNullReq).result
       = Except.error "TypeError: outputFormat.toLowerCase is not a function") :=
  ⟨fun _s h => (nomatch h),
   c10_nonstring_format_rejects demoEnv demoNullReq (fun _s h => (nomatch h))⟩

/-- C8: in the run's event trace the upload is started and the encoder's
output is piped into the sink strictly before any entry is appended: the
first two events are `startUpload` and `pipe`, and every `append` event
sits at an index of at least two. -/
theorem c8_upload_wired_before_appends (req : ArchiveRequest) (pages : List S3Page)
    (i : Nat) (nm : String)
    (h : (archiveTrace req pages).get? i = some (PipeEvent.append nm)) :
    (archiveTrace req pages).get? 0 = some PipeEvent.startUpload ∧
    (archiveTrace req pages).get? 1 = some PipeEvent.pipe ∧
    2 ≤ i := by
  refine ⟨rfl, rfl, ?_⟩
  rcases i with _ | _ | i
  · simp [archiveTrace] at h
  · simp [archiveTrace] at h
  · omega

/-- Witness for C8: in the concrete run the sole append event sits at index
two, right after `startUpload` and `pipe`. -/
theorem c8_upload_wired_before_appends_witness :
    (archiveTrace demoReq []).get? 2 = some (PipeEvent.append "f") ∧
    ((archiveTrace demoReq []).get? 0 = some PipeEvent.startUpload ∧
     (archiveTrace demoReq []).get? 1 = some PipeEvent.pipe ∧
     2 ≤ 2) :=
  ⟨rfl, c8_upload_wired_before_appends demoReq [] 2 "f" rfl⟩

/-- The read behaviour in which fetching `"p/b"` fails and every other key
succeeds. -/
def badRead : String → Bool := fun k => k != "p/b"

/-- Three resolved entries; the second one is the failing `"p/b"`. -/
def threeKeys : List String :=
  ["p/a", "p/b", "p/c"]

/-- C2 counterexample: with three resolved entries whose second read fails,
the loop still issues the append for the third entry — `"p/c"` is among the
appended keys — because the loop body contains no failure check and stream
read errors surface only after all appends were already issued. -/
theorem c2_read_failure_counterexample :
    badRead "p/b" = false ∧
    (appendCalls badRead none threeKeys).map AppendCall.key = ["p/a", "p/b", "p/c"] ∧
    "p/c" ∈ (appendCalls badRead none threeKeys).map AppendCall.key := by
  decide

/-- C2 (amended): the append loop is unconditional — one append per
resolved entry, in order, whatever the read outcomes are; a failing read
does not stop the appends of later entries. -/
theorem c2_appends_are_unconditional (readOk : String → Bool)
    (policy : Option (String → String)) (entries : List String) :
    (appendCalls readOk policy entries).map AppendCall.key = entries := by
  induction entries with
  | nil => rfl
  | cons a as ih =>
    simp only [appendCalls, List.map_cons] at ih ⊢
    rw [ih]
